import Mathlib

/-!
Verification of the Tateisi et al. Japanese readability scorer
(`tateisi.py`): a single-pass character-run classifier producing a
`Statistics` record, followed by two fixed linear scoring functions.

The embedding works over `ℚ` (the source's float arithmetic modelled as
exact rational arithmetic) and `List Char` for the input text.
-/

/-- One of the character classes distinguished by the classifier
(the four letter classes, the two punctuation marks, and everything else). -/
inductive CharacterClass where
  | Alphabet
  | Hiragana
  | Katakana
  | Kanji
  | Kuten
  | Toten
  | Other
  deriving DecidableEq, Repr

/-- Range check `0x0041 <= ord_l <= 0x007A or 0xFF21 <= ord_l <= 0xFF5A`
(latin, latin fullwidth) from the if-chain of `Tateisi.__init__`. -/
def isAlphabetChar (l : Char) : Bool :=
  (0x0041 ≤ l.toNat && l.toNat ≤ 0x007A) || (0xFF21 ≤ l.toNat && l.toNat ≤ 0xFF5A)

/-- Range check `0x3041 <= ord_l <= 0x3096` (hiragana). -/
def isHiraganaChar (l : Char) : Bool :=
  0x3041 ≤ l.toNat && l.toNat ≤ 0x3096

/-- Range check `0x30A1 <= ord_l <= 0x30FA` (katakana). -/
def isKatakanaChar (l : Char) : Bool :=
  0x30A1 ≤ l.toNat && l.toNat ≤ 0x30FA

/-- Range check `0x4E00 <= ord_l <= 0x9FBF` (kanji). -/
def isKanjiChar (l : Char) : Bool :=
  0x4E00 ≤ l.toNat && l.toNat ≤ 0x9FBF

/-- Classification of a single codepoint, mirroring the order of the
`if`/`elif` chain in `Tateisi.__init__`: Alphabet, then Hiragana, Katakana,
Kanji, Kuten (`。`), Toten (`、`); everything else (including the explicit
`continue` branches for ASCII digits and punctuation) is `Other`. -/
def classifyChar (l : Char) : CharacterClass :=
  if isAlphabetChar l then .Alphabet
  else if isHiraganaChar l then .Hiragana
  else if isKatakanaChar l then .Katakana
  else if isKanjiChar l then .Kanji
  else if l = '。' then .Kuten
  else if l = '、' then .Toten
  else .Other

/-- The raw accumulator state of the scan loop in `Tateisi.__init__`:
character counters `a h c k`, run counters `ar hr cr kr`, toten/kuten
counters `tt tk`, and the run-tracking variable `current_run`
(one of `""`, `"a"`, `"h"`, `"k"`, `"c"`, as in the source). -/
structure RawCounts where
  a : ℕ
  h : ℕ
  c : ℕ
  k : ℕ
  ar : ℕ
  hr : ℕ
  cr : ℕ
  kr : ℕ
  tt : ℕ
  tk : ℕ
  current_run : String
  deriving DecidableEq, Repr

/-- The initial accumulator (`a, h, c, k = 0, ...`, `current_run = ''`). -/
def initCounts : RawCounts :=
  { a := 0, h := 0, c := 0, k := 0
    ar := 0, hr := 0, cr := 0, kr := 0
    tt := 0, tk := 0, current_run := "" }

/-- One iteration of the scan loop in `Tateisi.__init__` on character `l`.
The trailing `elif ... continue` branches of the source change no state, so
they and the implicit fall-through are the final `s`. -/
def step (s : RawCounts) (l : Char) : RawCounts :=
  if isAlphabetChar l then
    let s := if s.current_run ≠ "a" then { s with current_run := "a", ar := s.ar + 1 } else s
    { s with a := s.a + 1 }
  else if isHiraganaChar l then
    let s := if s.current_run ≠ "h" then { s with current_run := "h", hr := s.hr + 1 } else s
    { s with h := s.h + 1 }
  else if isKatakanaChar l then
    let s := if s.current_run ≠ "k" then { s with current_run := "k", kr := s.kr + 1 } else s
    { s with k := s.k + 1 }
  else if isKanjiChar l then
    let s := if s.current_run ≠ "c" then { s with current_run := "c", cr := s.cr + 1 } else s
    { s with c := s.c + 1 }
  else if l = '。' then { s with tk := s.tk + 1 }
  else if l = '、' then { s with tt := s.tt + 1 }
  else s

/-- The whole scan loop: fold `step` over the text. -/
def scan (txt : List Char) : RawCounts :=
  txt.foldl step initCounts

/-- The derived statistics of `Tateisi`:
run percentages `pa ph pc pk`, mean run lengths `la lh lc lk`,
mean sentence length `ls` and toten/kuten ratio `cp`. -/
structure Statistics where
  pa : ℚ
  ph : ℚ
  pc : ℚ
  pk : ℚ
  la : ℚ
  lh : ℚ
  lc : ℚ
  lk : ℚ
  ls : ℚ
  cp : ℚ
  deriving DecidableEq, Repr

/-- The finalization arithmetic at the end of `Tateisi.__init__`:
`tk = tk or 1.0`, `tr = (ar + hr + cr + kr) / 100.0`, and the guarded
divisions producing the statistics (unassigned fields keep their zero
defaults). -/
def finalize (s : RawCounts) : Statistics :=
  let tk : ℚ := if s.tk = 0 then 1 else (s.tk : ℚ)
  let tr : ℚ := ((s.ar : ℚ) + (s.hr : ℚ) + (s.cr : ℚ) + (s.kr : ℚ)) / 100
  { pa := if tr ≠ 0 then (s.ar : ℚ) / tr else 0
    ph := if tr ≠ 0 then (s.hr : ℚ) / tr else 0
    pc := if tr ≠ 0 then (s.cr : ℚ) / tr else 0
    pk := if tr ≠ 0 then (s.kr : ℚ) / tr else 0
    la := if s.ar ≠ 0 then (s.a : ℚ) / (s.ar : ℚ) else 0
    lh := if s.hr ≠ 0 then (s.h : ℚ) / (s.hr : ℚ) else 0
    lc := if s.cr ≠ 0 then (s.c : ℚ) / (s.cr : ℚ) else 0
    lk := if s.kr ≠ 0 then (s.k : ℚ) / (s.kr : ℚ) else 0
    cp := (s.tt : ℚ) / tk
    ls := ((s.a : ℚ) + (s.h : ℚ) + (s.c : ℚ) + (s.k : ℚ)) / tk }

/-- Embedding of `Tateisi.__init__` as a whole: scan the text and derive
the statistics. -/
def classify (txt : List Char) : Statistics :=
  finalize (scan txt)

/-- Score formula `Tateisi.calculate_rs_tateisi_a`. -/
def calculate_rs_tateisi_a (s : Statistics) : ℚ :=
  (0.06 * s.pa) + (0.25 * s.ph) -
  (0.19 * s.pc) - (0.61 * s.pk) -
  (1.34 * s.ls) - (1.35 * s.la) +
  (7.52 * s.lh) - (22.1 * s.lc) -
  (5.3 * s.lk) - (3.87 * s.cp) -
  109.1

/-- Score formula `Tateisi.calculate_rs_tateisi_b`. -/
def calculate_rs_tateisi_b (s : Statistics) : ℚ :=
  (-0.12 * s.ls) + (-1.37 * s.la) +
  (7.4 * s.lh) + (-23.18 * s.lc) +
  (-5.4 * s.lk) + (-4.67 * s.cp) +
  115.79

/-- Score A exactly as the spec writes it, for comparison with the code:
`scoreA(s) = 0.06*pa + 0.25*ph - 0.19*pc - 0.61*pk - 1.34*ls - 1.35*la
+ 7.52*lh - 22.1*lc - 5.3*lk - 3.87*cp - 109.1`. -/
def scoreA_spec (s : Statistics) : ℚ :=
  0.06 * s.pa + 0.25 * s.ph - 0.19 * s.pc - 0.61 * s.pk - 1.34 * s.ls - 1.35 * s.la
    + 7.52 * s.lh - 22.1 * s.lc - 5.3 * s.lk - 3.87 * s.cp - 109.1

/-- Score B exactly as the spec writes it, for comparison with the code:
`scoreB(s) = -0.12*ls - 1.37*la + 7.4*lh - 23.18*lc - 5.4*lk - 4.67*cp + 115.79`. -/
def scoreB_spec (s : Statistics) : ℚ :=
  -0.12 * s.ls - 1.37 * s.la + 7.4 * s.lh - 23.18 * s.lc - 5.4 * s.lk - 4.67 * s.cp
    + 115.79

/-- Whether a class is one of the four letter classes that take part in run
tracking. -/
def CharacterClass.isLetter : CharacterClass → Bool
  | .Alphabet | .Hiragana | .Katakana | .Kanji => true
  | _ => false

/-- The classification predicates in the priority order the spec states:
Alphabet, Hiragana, Katakana, Kanji, Kuten, Toten (with Other as default). -/
def classPriority : List ((Char → Bool) × CharacterClass) :=
  [(isAlphabetChar, .Alphabet),
   (isHiraganaChar, .Hiragana),
   (isKatakanaChar, .Katakana),
   (isKanjiChar, .Kanji),
   (fun l => l == '。', .Kuten),
   (fun l => l == '、', .Toten)]

/-- Classification as the spec describes it: only the first matching
predicate in the priority list applies; `Other` when none matches. -/
def firstMatchClass (l : Char) : CharacterClass :=
  ((classPriority.find? (fun p => p.1 l)).map Prod.snd).getD .Other

/-- Division that refuses a zero divisor, used to show that every division
performed by the finalization is guarded. -/
def divGuard (x y : ℚ) : Option ℚ :=
  if y = 0 then none else some (x / y)

/-- The finalization of `Tateisi.__init__` with every division it performs
routed through `divGuard`: it fails if and only if some performed division
has a zero divisor. The guard structure (the `tk or 1.0` replacement, the
`tr != 0` check for the four percentages, the per-class `ar != 0` checks)
is exactly that of the source. -/
def finalizeChecked (s : RawCounts) : Option Statistics :=
  let tk : ℚ := if s.tk = 0 then 1 else (s.tk : ℚ)
  (divGuard ((s.ar : ℚ) + (s.hr : ℚ) + (s.cr : ℚ) + (s.kr : ℚ)) 100).bind fun tr =>
  (if tr ≠ 0 then divGuard (s.ar : ℚ) tr else some 0).bind fun pa =>
  (if tr ≠ 0 then divGuard (s.hr : ℚ) tr else some 0).bind fun ph =>
  (if tr ≠ 0 then divGuard (s.cr : ℚ) tr else some 0).bind fun pc =>
  (if tr ≠ 0 then divGuard (s.kr : ℚ) tr else some 0).bind fun pk =>
  (if s.ar ≠ 0 then divGuard (s.a : ℚ) (s.ar : ℚ) else some 0).bind fun la =>
  (if s.hr ≠ 0 then divGuard (s.h : ℚ) (s.hr : ℚ) else some 0).bind fun lh =>
  (if s.cr ≠ 0 then divGuard (s.c : ℚ) (s.cr : ℚ) else some 0).bind fun lc =>
  (if s.kr ≠ 0 then divGuard (s.k : ℚ) (s.kr : ℚ) else some 0).bind fun lk =>
  (divGuard (s.tt : ℚ) tk).bind fun cp =>
  (divGuard ((s.a : ℚ) + (s.h : ℚ) + (s.c : ℚ) + (s.k : ℚ)) tk).bind fun ls =>
  some { pa := pa, ph := ph, pc := pc, pk := pk
         la := la, lh := lh, lc := lc, lk := lk, ls := ls, cp := cp }

/-- The whole pipeline with checked divisions. -/
def classifyChecked (txt : List Char) : Option Statistics :=
  finalizeChecked (scan txt)

/-- The input text `"aa1aa"` from the spec. -/
def aa1aa : List Char := ['a', 'a', '1', 'a', 'a']

/-- The ASCII punctuation-and-digit example text from the spec
(codepoints `0x21` to `0x40`, then `0x7B` to `0x7D`). -/
def asciiJunk : List Char :=
  ((List.range' 0x21 32).map Char.ofNat) ++ ((List.range' 0x7B 3).map Char.ofNat)

/-! Helper lemmas about one step of the scan loop. -/

lemma step_of_other (s : RawCounts) (l : Char) (h : classifyChar l = .Other) :
    step s l = s := by
  unfold classifyChar at h
  unfold step
  split_ifs at h ⊢
  all_goals simp_all

lemma step_nonletter_fields (s : RawCounts) (l : Char)
    (h : (classifyChar l).isLetter = false) :
    (step s l).current_run = s.current_run ∧
    (step s l).ar = s.ar ∧ (step s l).hr = s.hr ∧
    (step s l).cr = s.cr ∧ (step s l).kr = s.kr ∧
    (step s l).a = s.a ∧ (step s l).h = s.h ∧
    (step s l).c = s.c ∧ (step s l).k = s.k := by
  unfold classifyChar at h
  unfold step
  split_ifs at h ⊢ <;> simp_all [CharacterClass.isLetter]

lemma classifyChar_eq_firstMatch (l : Char) : classifyChar l = firstMatchClass l := by
  unfold classifyChar firstMatchClass classPriority
  simp only [List.find?]
  cases hA : isAlphabetChar l <;> cases hH : isHiraganaChar l <;>
    cases hK : isKatakanaChar l <;> cases hC : isKanjiChar l <;>
    cases hKu : (l == '。') <;> cases hTo : (l == '、') <;>
    simp_all [beq_iff_eq]

lemma foldl_run_le (txt : List Char) (s : RawCounts)
    (h : s.ar ≤ s.a ∧ s.hr ≤ s.h ∧ s.cr ≤ s.c ∧ s.kr ≤ s.k) :
    (txt.foldl step s).ar ≤ (txt.foldl step s).a ∧
    (txt.foldl step s).hr ≤ (txt.foldl step s).h ∧
    (txt.foldl step s).cr ≤ (txt.foldl step s).c ∧
    (txt.foldl step s).kr ≤ (txt.foldl step s).k := by
  induction txt generalizing s with
  | nil => exact h
  | cons l txt ih =>
    rw [List.foldl_cons]
    apply ih
    unfold step
    split_ifs <;> simp_all <;> omega

lemma scan_run_le (txt : List Char) :
    (scan txt).ar ≤ (scan txt).a ∧ (scan txt).hr ≤ (scan txt).h ∧
    (scan txt).cr ≤ (scan txt).c ∧ (scan txt).kr ≤ (scan txt).k :=
  foldl_run_le txt initCounts (by simp [initCounts])

lemma foldl_sum_le (txt : List Char) (s : RawCounts) :
    (txt.foldl step s).a + (txt.foldl step s).h + (txt.foldl step s).c +
      (txt.foldl step s).k + (txt.foldl step s).tt + (txt.foldl step s).tk ≤
      s.a + s.h + s.c + s.k + s.tt + s.tk + txt.length := by
  induction txt generalizing s with
  | nil => simp
  | cons l txt ih =>
    rw [List.foldl_cons]
    have h2 := ih (step s l)
    have h1 : (step s l).a + (step s l).h + (step s l).c + (step s l).k +
        (step s l).tt + (step s l).tk ≤ s.a + s.h + s.c + s.k + s.tt + s.tk + 1 := by
      unfold step
      split_ifs <;> simp_all <;> omega
    simp only [List.length_cons]
    omega

lemma scan_sum_le (txt : List Char) :
    (scan txt).a + (scan txt).h + (scan txt).c + (scan txt).k +
      (scan txt).tt + (scan txt).tk ≤ txt.length := by
  have := foldl_sum_le txt initCounts
  simpa [scan, initCounts] using this

lemma div_pct_bounds (x n : ℚ) (h0 : 0 ≤ x) (hx : x ≤ n) :
    0 ≤ (if n / 100 ≠ 0 then x / (n / 100) else 0) ∧
    (if n / 100 ≠ 0 then x / (n / 100) else 0) ≤ 100 := by
  split_ifs with h
  · have hn0 : n ≠ 0 := by
      intro hn
      exact h (by rw [hn]; norm_num)
    have hn : 0 < n := lt_of_le_of_ne (le_trans h0 hx) (Ne.symm hn0)
    refine ⟨by positivity, ?_⟩
    rw [div_le_iff₀ (by positivity)]
    linarith
  · norm_num

lemma guarded_len_bounds (x r : ℕ) (L : ℚ) (hL : (x : ℚ) ≤ L) :
    0 ≤ (if r ≠ 0 then (x : ℚ) / (r : ℚ) else 0) ∧
    (if r ≠ 0 then (x : ℚ) / (r : ℚ) else 0) ≤ L := by
  split_ifs with h
  · have h1 : (1 : ℚ) ≤ (r : ℚ) := by exact_mod_cast Nat.one_le_iff_ne_zero.mpr h
    exact ⟨by positivity, le_trans (div_le_self (Nat.cast_nonneg x) h1) hL⟩
  · exact ⟨le_refl 0, le_trans (Nat.cast_nonneg x) hL⟩

lemma tkq_ge_one (tk : ℕ) : 1 ≤ (if tk = 0 then (1 : ℚ) else (tk : ℚ)) := by
  split_ifs with h
  · exact le_refl 1
  · exact_mod_cast Nat.one_le_iff_ne_zero.mpr h

lemma div_tkq_bounds (x tkq L : ℚ) (h1 : 1 ≤ tkq) (h0 : 0 ≤ x) (hL : x ≤ L) :
    0 ≤ x / tkq ∧ x / tkq ≤ L :=
  ⟨div_nonneg h0 (by linarith), le_trans (div_le_self h0 h1) hL⟩

lemma divGuard_of_ne (x y : ℚ) (h : y ≠ 0) : divGuard x y = some (x / y) := by
  unfold divGuard
  rw [if_neg h]

lemma pctDiv_some (x tr : ℚ) :
    (if tr ≠ 0 then divGuard x tr else some 0) = some (if tr ≠ 0 then x / tr else 0) := by
  split_ifs with h
  · exact divGuard_of_ne x tr h
  · rfl

lemma guardedDiv_some (x : ℚ) (r : ℕ) :
    (if r ≠ 0 then divGuard x (r : ℚ) else some 0) =
      some (if r ≠ 0 then x / (r : ℚ) else 0) := by
  split_ifs with h
  · exact divGuard_of_ne x (r : ℚ) (Nat.cast_ne_zero.mpr h)
  · rfl

lemma tkq_ne_zero (tk : ℕ) : (if tk = 0 then (1 : ℚ) else (tk : ℚ)) ≠ 0 := by
  split_ifs with h
  · norm_num
  · exact Nat.cast_ne_zero.mpr h

lemma finalizeChecked_eq (s : RawCounts) : finalizeChecked s = some (finalize s) := by
  have h100 : (100 : ℚ) ≠ 0 := by norm_num
  unfold finalizeChecked finalize
  rw [divGuard_of_ne _ _ h100]
  simp only [Option.some_bind, pctDiv_some, guardedDiv_some,
    divGuard_of_ne _ _ (tkq_ne_zero s.tk)]

lemma finalize_p_sum (s : RawCounts) :
    (0 < s.ar + s.hr + s.cr + s.kr →
      (finalize s).pa + (finalize s).ph + (finalize s).pc + (finalize s).pk = 100) ∧
    (s.ar + s.hr + s.cr + s.kr = 0 →
      (finalize s).pa + (finalize s).ph + (finalize s).pc + (finalize s).pk = 0) := by
  constructor
  · intro h
    have hn : ((s.ar : ℚ) + (s.hr : ℚ) + (s.cr : ℚ) + (s.kr : ℚ)) ≠ 0 := by
      have hq : (0 : ℚ) < (s.ar : ℚ) + (s.hr : ℚ) + (s.cr : ℚ) + (s.kr : ℚ) := by
        exact_mod_cast h
      exact ne_of_gt hq
    have htr : ((s.ar : ℚ) + (s.hr : ℚ) + (s.cr : ℚ) + (s.kr : ℚ)) / 100 ≠ 0 :=
      div_ne_zero hn (by norm_num)
    simp only [finalize, htr, if_true, ne_eq, not_false_iff, if_pos]
    field_simp
    ring
  · intro h
    have h1 : s.ar = 0 := by omega
    have h2 : s.hr = 0 := by omega
    have h3 : s.cr = 0 := by omega
    have h4 : s.kr = 0 := by omega
    simp [finalize, h1, h2, h3, h4]

lemma foldl_inert (txt : List Char) (s : RawCounts)
    (h : ∀ l ∈ txt, classifyChar l = .Other) :
    txt.foldl step s = s := by
  induction txt generalizing s with
  | nil => rfl
  | cons l txt ih =>
    rw [List.foldl_cons, step_of_other s l (h l (List.mem_cons_self l txt))]
    exact ih s fun x hx => h x (List.mem_cons_of_mem l hx)

lemma classifyChar_kuten (l : Char) (h : classifyChar l = .Kuten) : l = '。' := by
  unfold classifyChar at h
  split_ifs at h
  all_goals simp_all

lemma classifyChar_toten (l : Char) (h : classifyChar l = .Toten) : l = '、' := by
  unfold classifyChar at h
  split_ifs at h
  all_goals simp_all

lemma step_alphabet (s : RawCounts) (l : Char) (hA : isAlphabetChar l = true) :
    (step s l).a = s.a + 1 ∧
    (step s l).current_run = "a" ∧
    (s.current_run = "a" → (step s l).ar = s.ar) ∧
    (s.current_run ≠ "a" → (step s l).ar = s.ar + 1) := by
  unfold step
  simp only [hA]
  split_ifs with h <;> simp_all

lemma la_cases (x r : ℕ) (hle : r ≤ x) :
    (r ≠ 0 → 1 ≤ (if r ≠ 0 then (x : ℚ) / (r : ℚ) else 0)) ∧
    (r = 0 → (if r ≠ 0 then (x : ℚ) / (r : ℚ) else 0) = 0) := by
  constructor
  · intro h
    rw [if_pos h]
    have hpos : (0 : ℚ) < (r : ℚ) := by exact_mod_cast Nat.pos_of_ne_zero h
    rw [one_le_div hpos]
    exact_mod_cast hle
  · intro h
    simp [h]

lemma classify_la (txt : List Char) :
    (classify txt).la =
      if (scan txt).ar ≠ 0 then ((scan txt).a : ℚ) / ((scan txt).ar : ℚ) else 0 := rfl

lemma classify_lh (txt : List Char) :
    (classify txt).lh =
      if (scan txt).hr ≠ 0 then ((scan txt).h : ℚ) / ((scan txt).hr : ℚ) else 0 := rfl

lemma classify_lc (txt : List Char) :
    (classify txt).lc =
      if (scan txt).cr ≠ 0 then ((scan txt).c : ℚ) / ((scan txt).cr : ℚ) else 0 := rfl

lemma classify_lk (txt : List Char) :
    (classify txt).lk =
      if (scan txt).kr ≠ 0 then ((scan txt).k : ℚ) / ((scan txt).kr : ℚ) else 0 := rfl

lemma classify_bounds (txt : List Char) :
    (0 ≤ (classify txt).pa ∧ (classify txt).pa ≤ 100) ∧
    (0 ≤ (classify txt).ph ∧ (classify txt).ph ≤ 100) ∧
    (0 ≤ (classify txt).pc ∧ (classify txt).pc ≤ 100) ∧
    (0 ≤ (classify txt).pk ∧ (classify txt).pk ≤ 100) ∧
    (0 ≤ (classify txt).la ∧ (classify txt).la ≤ (txt.length : ℚ)) ∧
    (0 ≤ (classify txt).lh ∧ (classify txt).lh ≤ (txt.length : ℚ)) ∧
    (0 ≤ (classify txt).lc ∧ (classify txt).lc ≤ (txt.length : ℚ)) ∧
    (0 ≤ (classify txt).lk ∧ (classify txt).lk ≤ (txt.length : ℚ)) ∧
    (0 ≤ (classify txt).ls ∧ (classify txt).ls ≤ (txt.length : ℚ)) ∧
    (0 ≤ (classify txt).cp ∧ (classify txt).cp ≤ (txt.length : ℚ)) := by
  have hsum := scan_sum_le txt
  have ha : ((scan txt).a : ℚ) ≤ (txt.length : ℚ) := by
    exact_mod_cast show (scan txt).a ≤ txt.length by omega
  have hh : ((scan txt).h : ℚ) ≤ (txt.length : ℚ) := by
    exact_mod_cast show (scan txt).h ≤ txt.length by omega
  have hc : ((scan txt).c : ℚ) ≤ (txt.length : ℚ) := by
    exact_mod_cast show (scan txt).c ≤ txt.length by omega
  have hk : ((scan txt).k : ℚ) ≤ (txt.length : ℚ) := by
    exact_mod_cast show (scan txt).k ≤ txt.length by omega
  have htt : ((scan txt).tt : ℚ) ≤ (txt.length : ℚ) := by
    exact_mod_cast show (scan txt).tt ≤ txt.length by omega
  have habcd : ((scan txt).a : ℚ) + ((scan txt).h : ℚ) + ((scan txt).c : ℚ) +
      ((scan txt).k : ℚ) ≤ (txt.length : ℚ) := by
    exact_mod_cast show (scan txt).a + (scan txt).h + (scan txt).c + (scan txt).k ≤
      txt.length by omega
  have harn : ((scan txt).ar : ℚ) ≤ ((scan txt).ar : ℚ) + ((scan txt).hr : ℚ) +
      ((scan txt).cr : ℚ) + ((scan txt).kr : ℚ) := by
    exact_mod_cast show (scan txt).ar ≤ (scan txt).ar + (scan txt).hr + (scan txt).cr +
      (scan txt).kr by omega
  have hhrn : ((scan txt).hr : ℚ) ≤ ((scan txt).ar : ℚ) + ((scan txt).hr : ℚ) +
      ((scan txt).cr : ℚ) + ((scan txt).kr : ℚ) := by
    exact_mod_cast show (scan txt).hr ≤ (scan txt).ar + (scan txt).hr + (scan txt).cr +
      (scan txt).kr by omega
  have hcrn : ((scan txt).cr : ℚ) ≤ ((scan txt).ar : ℚ) + ((scan txt).hr : ℚ) +
      ((scan txt).cr : ℚ) + ((scan txt).kr : ℚ) := by
    exact_mod_cast show (scan txt).cr ≤ (scan txt).ar + (scan txt).hr + (scan txt).cr +
      (scan txt).kr by omega
  have hkrn : ((scan txt).kr : ℚ) ≤ ((scan txt).ar : ℚ) + ((scan txt).hr : ℚ) +
      ((scan txt).cr : ℚ) + ((scan txt).kr : ℚ) := by
    exact_mod_cast show (scan txt).kr ≤ (scan txt).ar + (scan txt).hr + (scan txt).cr +
      (scan txt).kr by omega
  simp only [classify, finalize]
  refine ⟨?_, ?_, ?_, ?_, ?_, ?_, ?_, ?_, ?_, ?_⟩
  · exact div_pct_bounds _ _ (Nat.cast_nonneg _) harn
  · exact div_pct_bounds _ _ (Nat.cast_nonneg _) hhrn
  · exact div_pct_bounds _ _ (Nat.cast_nonneg _) hcrn
  · exact div_pct_bounds _ _ (Nat.cast_nonneg _) hkrn
  · exact guarded_len_bounds _ _ _ ha
  · exact guarded_len_bounds _ _ _ hh
  · exact guarded_len_bounds _ _ _ hc
  · exact guarded_len_bounds _ _ _ hk
  · exact div_tkq_bounds _ _ _ (tkq_ge_one _) (by positivity) habcd
  · exact div_tkq_bounds _ _ _ (tkq_ge_one _) (Nat.cast_nonneg _) htt

/-! The claims. -/

/-- C1: for every Statistics value `s`, `calculate_rs_tateisi_a s` equals the
spec formula `0.06*pa + 0.25*ph - 0.19*pc - 0.61*pk - 1.34*ls - 1.35*la +
7.52*lh - 22.1*lc - 5.3*lk - 3.87*cp - 109.1` and `calculate_rs_tateisi_b s`
equals `-0.12*ls - 1.37*la + 7.4*lh - 23.18*lc - 5.4*lk - 4.67*cp + 115.79`,
with exactly these coefficients and this term order. -/
theorem claim_scores_match_spec (s : Statistics) :
    calculate_rs_tateisi_a s = scoreA_spec s ∧
    calculate_rs_tateisi_b s = scoreB_spec s := by
  unfold calculate_rs_tateisi_a scoreA_spec calculate_rs_tateisi_b scoreB_spec
  constructor <;> ring

/-- C2: characters that are not of one of the four letter classes never
modify the run-tracking state (neither `current_run` nor any run or
character counter), and the input `"aa1aa"` records exactly one Alphabet
run with character count 4. -/
theorem claim_nonletter_invisible :
    ((scan aa1aa).ar = 1 ∧ (scan aa1aa).a = 4 ∧
      (scan aa1aa).hr = 0 ∧ (scan aa1aa).cr = 0 ∧ (scan aa1aa).kr = 0) ∧
    ∀ (s : RawCounts) (l : Char), (classifyChar l).isLetter = false →
      (step s l).current_run = s.current_run ∧
      (step s l).ar = s.ar ∧ (step s l).hr = s.hr ∧
      (step s l).cr = s.cr ∧ (step s l).kr = s.kr ∧
      (step s l).a = s.a ∧ (step s l).h = s.h ∧
      (step s l).c = s.c ∧ (step s l).k = s.k :=
  ⟨by decide, step_nonletter_fields⟩

/-- Witness for C2 at the digit character 1 and the initial state. -/
theorem claim_nonletter_invisible_witness :
    (classifyChar '1').isLetter = false ∧
    (step initCounts '1').ar = initCounts.ar ∧
    (step initCounts '1').a = initCounts.a :=
  ⟨by decide,
   (claim_nonletter_invisible.2 initCounts '1' (by decide)).2.1,
   (claim_nonletter_invisible.2 initCounts '1' (by decide)).2.2.2.2.2.1⟩

/-- C3: single-codepoint classification follows the fixed priority order
Alphabet, Hiragana, Katakana, Kanji, Kuten, Toten, Other with only the
first matching predicate applying, and every codepoint in `0x5B` to `0x60`
(the ASCII characters between Z and a) is counted as an Alphabet character
that starts or extends an Alphabet run. -/
theorem claim_priority_order_and_ascii_gap :
    (∀ l : Char, classifyChar l = firstMatchClass l) ∧
    ∀ (s : RawCounts) (l : Char), 0x5B ≤ l.toNat → l.toNat ≤ 0x60 →
      classifyChar l = CharacterClass.Alphabet ∧
      (step s l).a = s.a + 1 ∧
      (step s l).current_run = "a" ∧
      (s.current_run = "a" → (step s l).ar = s.ar) ∧
      (s.current_run ≠ "a" → (step s l).ar = s.ar + 1) := by
  refine ⟨classifyChar_eq_firstMatch, ?_⟩
  intro s l h1 h2
  have hA : isAlphabetChar l = true := by
    unfold isAlphabetChar
    simp only [Bool.or_eq_true, Bool.and_eq_true, decide_eq_true_eq]
    left
    omega
  have hcl : classifyChar l = CharacterClass.Alphabet := by
    unfold classifyChar
    rw [if_pos hA]
  exact ⟨hcl, step_alphabet s l hA⟩

/-- Witness for C3 at the underscore character (codepoint `0x5F`). -/
theorem claim_priority_order_and_ascii_gap_witness :
    classifyChar (Char.ofNat 0x5F) = CharacterClass.Alphabet ∧
    (step initCounts (Char.ofNat 0x5F)).ar = initCounts.ar + 1 := by
  have h := claim_priority_order_and_ascii_gap.2 initCounts (Char.ofNat 0x5F)
    (by decide) (by decide)
  exact ⟨h.1, h.2.2.2.2 (by decide)⟩

/-- C4: the four run-percentage statistics sum to exactly 100 whenever at
least one letter run exists, and to 0 when no run exists. -/
theorem claim_percentages_sum (txt : List Char) :
    (0 < (scan txt).ar + (scan txt).hr + (scan txt).cr + (scan txt).kr →
      (classify txt).pa + (classify txt).ph + (classify txt).pc +
        (classify txt).pk = 100) ∧
    ((scan txt).ar + (scan txt).hr + (scan txt).cr + (scan txt).kr = 0 →
      (classify txt).pa + (classify txt).ph + (classify txt).pc +
        (classify txt).pk = 0) :=
  finalize_p_sum (scan txt)

/-- Witness for C4: the text "a" has a run so its percentages sum to 100;
the empty text has none so they sum to 0. -/
theorem claim_percentages_sum_witness :
    ((classify ['a']).pa + (classify ['a']).ph + (classify ['a']).pc +
      (classify ['a']).pk = 100) ∧
    ((classify []).pa + (classify []).ph + (classify []).pc +
      (classify []).pk = 0) :=
  ⟨(claim_percentages_sum ['a']).1 (by decide),
   (claim_percentages_sum []).2 (by decide)⟩

/-- C5 counterexample: the lone toten text contains no letter-class
character and no kuten mark, yet its statistics are not all 0 (`cp = 1`)
and score B is 111.12, not 115.79. -/
theorem claim_inert_inputs_counterexample :
    (∀ l ∈ ['、'], (classifyChar l).isLetter = false ∧ l ≠ '。') ∧
    (classify ['、']).cp = 1 ∧
    calculate_rs_tateisi_b (classify ['、']) = 111.12 ∧
    calculate_rs_tateisi_b (classify ['、']) ≠ 115.79 := by
  have hs : scan ['、'] = { initCounts with tt := 1 } := by decide
  refine ⟨by decide, ?_, ?_, ?_⟩ <;>
    · unfold classify
      rw [hs]
      norm_num [finalize, initCounts, calculate_rs_tateisi_b]

/-- C5 (amended): for every input containing no letter-class character, no
kuten mark and no toten mark, all statistics are 0, score B is exactly
115.79 and score A is exactly -109.1. -/
theorem claim_inert_inputs (txt : List Char)
    (h : ∀ l ∈ txt, (classifyChar l).isLetter = false ∧ l ≠ '。' ∧ l ≠ '、') :
    (classify txt).pa = 0 ∧ (classify txt).ph = 0 ∧ (classify txt).pc = 0 ∧
    (classify txt).pk = 0 ∧ (classify txt).la = 0 ∧ (classify txt).lh = 0 ∧
    (classify txt).lc = 0 ∧ (classify txt).lk = 0 ∧ (classify txt).ls = 0 ∧
    (classify txt).cp = 0 ∧
    calculate_rs_tateisi_b (classify txt) = 115.79 ∧
    calculate_rs_tateisi_a (classify txt) = -109.1 := by
  have hother : ∀ l ∈ txt, classifyChar l = CharacterClass.Other := by
    intro l hl
    obtain ⟨h1, h2, h3⟩ := h l hl
    cases hc : classifyChar l
    case Kuten => exact absurd (classifyChar_kuten l hc) h2
    case Toten => exact absurd (classifyChar_toten l hc) h3
    all_goals simp_all [CharacterClass.isLetter]
  have hscan : scan txt = initCounts := foldl_inert txt initCounts hother
  unfold classify
  rw [hscan]
  norm_num [finalize, initCounts, calculate_rs_tateisi_a, calculate_rs_tateisi_b]

/-- Witness for the amended C5 at the ASCII punctuation-and-digit text of
the spec. -/
theorem claim_inert_inputs_witness :
    (∀ l ∈ asciiJunk, (classifyChar l).isLetter = false ∧ l ≠ '。' ∧ l ≠ '、') ∧
    calculate_rs_tateisi_b (classify asciiJunk) = 115.79 ∧
    calculate_rs_tateisi_a (classify asciiJunk) = -109.1 := by
  have h : ∀ l ∈ asciiJunk, (classifyChar l).isLetter = false ∧ l ≠ '。' ∧ l ≠ '、' := by
    decide
  have hc := claim_inert_inputs asciiJunk h
  exact ⟨h, hc.2.2.2.2.2.2.2.2.2.2⟩

/-- C6: for each letter class, the mean run length is at least 1 whenever
the run count is nonzero (and then the character count is at least the run
count), and is exactly 0 whenever the run count is zero. -/
theorem claim_mean_run_lengths (txt : List Char) :
    ((scan txt).ar ≠ 0 → (scan txt).ar ≤ (scan txt).a ∧ 1 ≤ (classify txt).la) ∧
    ((scan txt).ar = 0 → (classify txt).la = 0) ∧
    ((scan txt).hr ≠ 0 → (scan txt).hr ≤ (scan txt).h ∧ 1 ≤ (classify txt).lh) ∧
    ((scan txt).hr = 0 → (classify txt).lh = 0) ∧
    ((scan txt).cr ≠ 0 → (scan txt).cr ≤ (scan txt).c ∧ 1 ≤ (classify txt).lc) ∧
    ((scan txt).cr = 0 → (classify txt).lc = 0) ∧
    ((scan txt).kr ≠ 0 → (scan txt).kr ≤ (scan txt).k ∧ 1 ≤ (classify txt).lk) ∧
    ((scan txt).kr = 0 → (classify txt).lk = 0) := by
  obtain ⟨h1, h2, h3, h4⟩ := scan_run_le txt
  refine ⟨fun h => ⟨h1, ?_⟩, fun h => ?_, fun h => ⟨h2, ?_⟩, fun h => ?_,
    fun h => ⟨h3, ?_⟩, fun h => ?_, fun h => ⟨h4, ?_⟩, fun h => ?_⟩
  · rw [classify_la]
    exact (la_cases _ _ h1).1 h
  · rw [classify_la]
    exact (la_cases _ _ h1).2 h
  · rw [classify_lh]
    exact (la_cases _ _ h2).1 h
  · rw [classify_lh]
    exact (la_cases _ _ h2).2 h
  · rw [classify_lc]
    exact (la_cases _ _ h3).1 h
  · rw [classify_lc]
    exact (la_cases _ _ h3).2 h
  · rw [classify_lk]
    exact (la_cases _ _ h4).1 h
  · rw [classify_lk]
    exact (la_cases _ _ h4).2 h

/-- Witness for C6 at the text "a": an Alphabet run exists so `la` is at
least 1, and no Hiragana run exists so `lh` is 0. -/
theorem claim_mean_run_lengths_witness :
    ((scan ['a']).ar ≤ (scan ['a']).a ∧ 1 ≤ (classify ['a']).la) ∧
    (classify ['a']).lh = 0 :=
  ⟨(claim_mean_run_lengths ['a']).1 (by decide),
   (claim_mean_run_lengths ['a']).2.2.2.1 (by decide)⟩

/-- C7: the classifier is total: the checked pipeline, in which every
division performed by the finalization fails on a zero divisor, succeeds on
every input and returns exactly the statistics of `classify`; and every
character classified as Other leaves the scan state untouched. -/
theorem claim_total_and_guarded :
    (∀ txt : List Char, classifyChecked txt = some (classify txt)) ∧
    (∀ (s : RawCounts) (l : Char), classifyChar l = CharacterClass.Other →
      step s l = s) :=
  ⟨fun txt => finalizeChecked_eq (scan txt), step_of_other⟩

/-- Witness for C7 at the space character and the initial state. -/
theorem claim_total_and_guarded_witness :
    classifyChar ' ' = CharacterClass.Other ∧ step initCounts ' ' = initCounts :=
  ⟨by decide, claim_total_and_guarded.2 initCounts ' ' (by decide)⟩

/-- C8: both scores are well-defined finite rationals for every input; in
fact their magnitudes are bounded by an explicit linear function of the
input length. -/
theorem claim_scores_finite (txt : List Char) :
    |calculate_rs_tateisi_a (classify txt)| ≤ 43 * (txt.length : ℚ) + 250 ∧
    |calculate_rs_tateisi_b (classify txt)| ≤ 43 * (txt.length : ℚ) + 250 := by
  obtain ⟨⟨hpa0, hpa⟩, ⟨hph0, hph⟩, ⟨hpc0, hpc⟩, ⟨hpk0, hpk⟩, ⟨hla0, hla⟩,
    ⟨hlh0, hlh⟩, ⟨hlc0, hlc⟩, ⟨hlk0, hlk⟩, ⟨hls0, hls⟩, ⟨hcp0, hcp⟩⟩ :=
    classify_bounds txt
  unfold calculate_rs_tateisi_a calculate_rs_tateisi_b
  constructor <;> rw [abs_le] <;> constructor <;> linarith

/-- C9: classification is deterministic: classifying equal texts yields
statistics identical in every field. -/
theorem claim_deterministic (txt1 txt2 : List Char) (h : txt1 = txt2) :
    (classify txt1).pa = (classify txt2).pa ∧
    (classify txt1).ph = (classify txt2).ph ∧
    (classify txt1).pc = (classify txt2).pc ∧
    (classify txt1).pk = (classify txt2).pk ∧
    (classify txt1).la = (classify txt2).la ∧
    (classify txt1).lh = (classify txt2).lh ∧
    (classify txt1).lc = (classify txt2).lc ∧
    (classify txt1).lk = (classify txt2).lk ∧
    (classify txt1).ls = (classify txt2).ls ∧
    (classify txt1).cp = (classify txt2).cp := by
  subst h
  exact ⟨rfl, rfl, rfl, rfl, rfl, rfl, rfl, rfl, rfl, rfl⟩

/-- Witness for C9 at the text "aa1aa". -/
theorem claim_deterministic_witness :
    (classify aa1aa).pa = (classify aa1aa).pa ∧
    (classify aa1aa).ph = (classify aa1aa).ph ∧
    (classify aa1aa).pc = (classify aa1aa).pc ∧
    (classify aa1aa).pk = (classify aa1aa).pk ∧
    (classify aa1aa).la = (classify aa1aa).la ∧
    (classify aa1aa).lh = (classify aa1aa).lh ∧
    (classify aa1aa).lc = (classify aa1aa).lc ∧
    (classify aa1aa).lk = (classify aa1aa).lk ∧
    (classify aa1aa).ls = (classify aa1aa).ls ∧
    (classify aa1aa).cp = (classify aa1aa).cp :=
  claim_deterministic aa1aa aa1aa rfl

/-- C10: every codepoint in the fullwidth gap `0xFF3B` to `0xFF40` (between
fullwidth Z and fullwidth a) is classified as Alphabet and starts or
extends an Alphabet run, mirroring the ASCII overlap of C3. -/
theorem claim_fullwidth_gap (s : RawCounts) (l : Char)
    (h1 : 0xFF3B ≤ l.toNat) (h2 : l.toNat ≤ 0xFF40) :
    classifyChar l = CharacterClass.Alphabet ∧
    (step s l).a = s.a + 1 ∧
    (step s l).current_run = "a" ∧
    (s.current_run = "a" → (step s l).ar = s.ar) ∧
    (s.current_run ≠ "a" → (step s l).ar = s.ar + 1) := by
  have hA : isAlphabetChar l = true := by
    unfold isAlphabetChar
    simp only [Bool.or_eq_true, Bool.and_eq_true, decide_eq_true_eq]
    right
    omega
  have hcl : classifyChar l = CharacterClass.Alphabet := by
    unfold classifyChar
    rw [if_pos hA]
  exact ⟨hcl, step_alphabet s l hA⟩

/-- Witness for C10 at the fullwidth opening bracket (codepoint `0xFF3B`). -/
theorem claim_fullwidth_gap_witness :
    classifyChar (Char.ofNat 0xFF3B) = CharacterClass.Alphabet ∧
    (step initCounts (Char.ofNat 0xFF3B)).ar = initCounts.ar + 1 := by
  have h := claim_fullwidth_gap initCounts (Char.ofNat 0xFF3B) (by decide) (by decide)
  exact ⟨h.1, h.2.2.2.2 (by decide)⟩
